import Mathlib

/-!
# Verification of the hazard-aware route planning engine

A shallow embedding, in Lean 4, of the core of the GreenCommute/LumenRoute
backend: the polyline codec, haversine distance, nearby-hazard detection,
exposure scoring, avoidance-waypoint synthesis (`backend/src/geo.ts`), and the
route-planning orchestration (`backend/src/routes/routes.ts`, the version with
the mock-route fallback and the avoidance pass; recommendation finalization
from `backend/src/gemini.ts`; mock data from `backend/src/mockData.ts`).

Modelling conventions:
* JavaScript numbers are modelled by `ℚ` (exact rationals) except where the
  source genuinely computes with transcendental functions (`Math.sin`,
  `Math.sqrt`, ...), which are modelled over `ℝ`.
* The 32-bit bitwise arithmetic of the polyline decoder is modelled exactly:
  accumulators are unsigned 32-bit patterns (`Nat < 2^32`) and the signed
  reinterpretation is explicit.
* `String.prototype.charCodeAt` past the end of the string returns `NaN` in
  JavaScript; `NaN & 0x1f` is `0` and `NaN >= 0x20` is `false`, so an
  out-of-range read behaves exactly like a terminating zero chunk.  The
  embedding reproduces this by returning the accumulator unchanged when the
  character list is exhausted.
* Network calls and the external reasoner are oracles (explicit function
  parameters); the haversine metric used by the scanning code is likewise
  abstracted as a `dist` parameter where the claim under study concerns the
  scanning logic rather than the metric itself.
-/

/-- A latitude/longitude pair (`interface LatLng` in `geo.ts`). -/
structure LatLng (α : Type) where
  lat : α
  lng : α
deriving DecidableEq

/-! ## Polyline decoder (`decodePolyline`, geo.ts lines 22–56) -/

/-- One variable-length codeword read of the Google polyline format.
`acc` is the 32-bit accumulator (`result` in the source, unsigned view),
`shift` the current shift.  Each character contributes its low five bits
(`(byte & 0x1f) << shift`, with JavaScript's 32-bit truncation and shift
masking) and continues while `byte >= 0x20`, i.e. while the character code is
at least 95.  An exhausted list models `charCodeAt` returning `NaN`: the
contribution is zero and the continuation test fails. -/
def readCodeword (acc shift : Nat) : List Nat → Nat × List Nat
  | [] => (acc, [])
  | c :: rest =>
    let chunk : Nat := (((c : Int) - 63).emod 32).toNat
    let acc' : Nat := acc ||| ((chunk <<< (shift % 32)) % 4294967296)
    if 95 ≤ c then readCodeword acc' (shift + 5) rest else (acc', rest)

/-- Zig-zag decoding of a 32-bit accumulator, exactly as the source computes
`result & 1 ? ~(result >> 1) : result >> 1` on a signed 32-bit `result`:
the unsigned pattern is reinterpreted as signed, shifted arithmetically right
by one (floor division by 2), and complemented when the low bit is set. -/
def zigzagDecode (u : Nat) : Int :=
  let v : Int := if u < 2147483648 then (u : Int) else (u : Int) - 4294967296
  if u % 2 = 1 then -(v / 2) - 1 else v / 2

/-- The decoding loop of `decodePolyline`: while input remains, read a
latitude codeword and a longitude codeword, accumulate the deltas, and emit
the running point divided by 1e5.  The loop consumes at least one character
per iteration, so `l.length` iterations always suffice; the `fuel` argument
only makes that structural (see `decodeLoop_fuel_irrelevant`). -/
def decodeLoop (fuel : Nat) (l : List Nat) (lat lng : Int) : List (LatLng ℚ) :=
  match fuel, l with
  | _, [] => []
  | 0, _ :: _ => []
  | fuel + 1, c :: rest =>
    let p1 := readCodeword 0 0 (c :: rest)
    let lat' := lat + zigzagDecode p1.1
    let p2 := readCodeword 0 0 p1.2
    let lng' := lng + zigzagDecode p2.1
    ⟨(lat' : ℚ) / 100000, (lng' : ℚ) / 100000⟩ :: decodeLoop fuel p2.2 lat' lng'

/-- `decodePolyline` (geo.ts): decode an encoded polyline string into a list
of latitude/longitude points. -/
def decodePolyline (encoded : String) : List (LatLng ℚ) :=
  decodeLoop encoded.data.length (encoded.data.map Char.toNat) 0 0

/-- The encoded string ends mid-codeword: its final 5-bit chunk has the
continuation bit set (character code ≥ 95 = 63 + 0x20) but no further
character follows. -/
def endsMidCodeword (encoded : String) : Bool :=
  match encoded.data.getLast? with
  | some c => 95 ≤ c.toNat
  | none => false

/-! ## JavaScript-style rounding helpers -/

/-- `Math.round`: nearest integer, ties toward +∞. -/
def jsRound (q : ℚ) : Int := ⌊q + 1 / 2⌋

/-- `Number(x.toFixed(n))`: round to `n` decimal places (ties toward the
larger candidate, i.e. toward +∞). -/
def jsToFixed (n : Nat) (q : ℚ) : ℚ := (jsRound (q * 10 ^ n) : ℚ) / 10 ^ n

/-! ## Haversine distance (`haversineDistance`, geo.ts lines 62–80) -/

noncomputable def toRadians (deg : ℝ) : ℝ := deg * Real.pi / 180

/-- Great-circle distance in meters between two points, spherical Earth of
radius 6 371 000 m, exactly as written in the source. -/
noncomputable def haversineDistance (a b : LatLng ℝ) : ℝ :=
  let dLat := toRadians (b.lat - a.lat)
  let dLng := toRadians (b.lng - a.lng)
  let sinLat := Real.sin (dLat / 2)
  let sinLng := Real.sin (dLng / 2)
  let h := sinLat * sinLat +
    Real.cos (toRadians a.lat) * Real.cos (toRadians b.lat) * sinLng * sinLng
  2 * 6371000 * Real.arcsin (Real.sqrt h)

/-! ## Nearby hazard detection (`findNearbyHazards`, geo.ts lines 104–149)

The haversine metric is abstracted as a `dist` parameter: the claims about
this code concern the sampling/scanning/aggregation logic, which is the same
for every distance oracle (the source instantiates `dist` with
`haversineDistance`). -/

/-- Hazard source tag (`"camera" | "report"`). -/
inductive HazardSource where
  | camera
  | report
deriving DecidableEq

/-- `interface HazardPoint` (geo.ts lines 86–94). -/
structure HazardPoint where
  id : String
  lat : ℚ
  lng : ℚ
  type : String
  severity : ℚ
  description : String
  source : HazardSource
deriving DecidableEq

/-- `interface NearbyHazard extends HazardPoint` with the route-relative
`distanceMeters`. -/
structure NearbyHazard extends HazardPoint where
  distanceMeters : ℚ
deriving DecidableEq

/-- The polyline downsampling of `findNearbyHazards`: stride
`max(1, floor(len/200))`, visiting indices `0, step, 2*step, ...`, then the
last point is appended when the final stride index is not already the last
index (the source compares object references, which for the freshly built
point objects coincides with index equality). -/
def samplePoints (polylinePoints : List (LatLng ℚ)) : List (LatLng ℚ) :=
  match polylinePoints with
  | [] => []
  | _ :: _ =>
    let len := polylinePoints.length
    let step := max 1 (len / 200)
    let sampled := (List.range len).filterMap
      (fun i => if i % step = 0 then polylinePoints[i]? else none)
    let lastStrideIdx := step * ((len - 1) / step)
    if lastStrideIdx = len - 1 then sampled
    else
      match polylinePoints.getLast? with
      | some lastPoint => sampled ++ [lastPoint]
      | none => sampled

/-- The inner scanning loop of `findNearbyHazards` for one hazard:
running minimum over the sampled points (`none` models the initial
`Infinity`), breaking as soon as the running minimum drops below
`radiusMeters * 0.5`. -/
def scanMinAux (dist : LatLng ℚ → LatLng ℚ → ℚ) (hazardLoc : LatLng ℚ)
    (radiusMeters : ℚ) : Option ℚ → List (LatLng ℚ) → Option ℚ
  | minDistance, [] => minDistance
  | minDistance, point :: rest =>
    let d := dist point hazardLoc
    let m := match minDistance with
      | none => d
      | some m0 => if d < m0 then d else m0
    if m < radiusMeters * (1 / 2) then some m
    else scanMinAux dist hazardLoc radiusMeters (some m) rest

/-- Minimum distance from a hazard to the sampled points, with the source's
early exit. -/
def scanMinDistance (dist : LatLng ℚ → LatLng ℚ → ℚ) (hazardLoc : LatLng ℚ)
    (radiusMeters : ℚ) (sampledPoints : List (LatLng ℚ)) : Option ℚ :=
  scanMinAux dist hazardLoc radiusMeters none sampledPoints

/-- One step of the full (no-early-exit) minimum computation: update the
running minimum (`none` models the initial `Infinity`). -/
def fullScanStep (dist : LatLng ℚ → LatLng ℚ → ℚ) (hazardLoc : LatLng ℚ)
    (acc : Option ℚ) (point : LatLng ℚ) : Option ℚ :=
  let d := dist point hazardLoc
  match acc with
  | none => some d
  | some m0 => some (if d < m0 then d else m0)

/-- Follows the spec's words, for comparison with the early-exit scan: the
minimum distance from the hazard to ALL sampled points (full scan, no early
exit). -/
def fullScanMinDistance (dist : LatLng ℚ → LatLng ℚ → ℚ) (hazardLoc : LatLng ℚ)
    (sampledPoints : List (LatLng ℚ)) : Option ℚ :=
  sampledPoints.foldl (fullScanStep dist hazardLoc) none

/-- The membership criterion of `findNearbyHazards`: a finite minimum within
the radius (`none`, i.e. `Infinity`, never qualifies). -/
def qualifiesWithin : Option ℚ → ℚ → Bool
  | some m, radius => m ≤ radius
  | none, _ => false

/-- `Map.set` of the JavaScript `Map<string, NearbyHazard>`: replace in place
when the id is already present (keeping the original insertion position),
append otherwise. -/
def mapSet (l : List NearbyHazard) (h : NearbyHazard) : List NearbyHazard :=
  if l.any (fun x => x.id = h.id) then l.map (fun x => if x.id = h.id then h else x)
  else l ++ [h]

/-- The per-hazard body of the main loop of `findNearbyHazards`: scan the
sampled points (with the early exit) and, when the minimum distance is within
the radius, set the hazard in the id-keyed map with its rounded distance. -/
def nearbyStep (dist : LatLng ℚ → LatLng ℚ → ℚ) (radiusMeters : ℚ)
    (sampledPoints : List (LatLng ℚ)) (acc : List NearbyHazard)
    (hazard : HazardPoint) : List NearbyHazard :=
  let hazardLoc : LatLng ℚ := ⟨hazard.lat, hazard.lng⟩
  match scanMinDistance dist hazardLoc radiusMeters sampledPoints with
  | none => acc
  | some minDistance =>
    if minDistance ≤ radiusMeters then
      mapSet acc { toHazardPoint := hazard, distanceMeters := (jsRound minDistance : ℚ) }
    else acc

/-- `findNearbyHazards` (geo.ts): all hazards whose (early-exit) minimum
distance to the sampled polyline is within `radiusMeters`, one entry per id,
sorted ascending by `distanceMeters` (rounded via `Math.round`).
`Array.prototype.sort` with the comparator `a.distanceMeters -
b.distanceMeters` is a stable sort by distance, modelled by the (stable)
insertion sort. -/
def findNearbyHazards (dist : LatLng ℚ → LatLng ℚ → ℚ)
    (polylinePoints : List (LatLng ℚ)) (hazards : List HazardPoint)
    (radiusMeters : ℚ) : List NearbyHazard :=
  if polylinePoints = [] ∨ hazards = [] then [] else
  let sampledPoints := samplePoints polylinePoints
  let nearbyMap := hazards.foldl (nearbyStep dist radiusMeters sampledPoints) []
  nearbyMap.insertionSort (fun a b => a.distanceMeters ≤ b.distanceMeters)

/-! ## Exposure scoring (`calculateHazardExposureScore`, geo.ts lines 272–286) -/

/-- Hazard exposure score: each hazard contributes
`(1 - distanceMeters/500) * (severity/10) * 30`; the sum is rounded
(`Math.round`) and clamped above by 100; the empty list scores 0. -/
def calculateHazardExposureScore (nearbyHazards : List NearbyHazard) : Int :=
  if nearbyHazards = [] then 0 else
  let score := nearbyHazards.foldl (fun acc hazard =>
    let proximityFactor := 1 - hazard.distanceMeters / 500
    let severityFactor := hazard.severity / 10
    acc + proximityFactor * severityFactor * 30) 0
  min 100 (jsRound score)

/-! ## Avoidance waypoint generation (`generateAvoidanceWaypoint`,
geo.ts lines 166–222)

`Math.sqrt` is a parameter so that the same definition serves the real-valued
instantiation (`Real.sqrt`, used for the claims about this function) and the
oracle-based orchestrator pipeline. -/

/-- Place a waypoint `offsetMeters` (converted to degrees via `/111000`) from
the midpoint of the route segment, perpendicular to the segment, on the side
opposite the hazard; degenerate zero-length segments offset directly away
from the hazard, and a fully degenerate configuration nudges by +0.01°. -/
def generateAvoidanceWaypoint {α : Type} [LinearOrderedField α] (sqrt : α → α)
    (routePointBefore routePointAfter hazardPoint : LatLng α)
    (offsetMeters : α) : LatLng α :=
  let routeDLat := routePointAfter.lat - routePointBefore.lat
  let routeDLng := routePointAfter.lng - routePointBefore.lng
  let perpLat := -routeDLng
  let perpLng := routeDLat
  let perpLen := sqrt (perpLat * perpLat + perpLng * perpLng)
  if perpLen = 0 then
    let midLat := (routePointBefore.lat + routePointAfter.lat) / 2
    let midLng := (routePointBefore.lng + routePointAfter.lng) / 2
    let awayLat := midLat - hazardPoint.lat
    let awayLng := midLng - hazardPoint.lng
    let awayLen := sqrt (awayLat * awayLat + awayLng * awayLng)
    if awayLen = 0 then ⟨midLat + 1 / 100, midLng + 1 / 100⟩
    else
      let degOffset := offsetMeters / 111000
      ⟨midLat + awayLat / awayLen * degOffset, midLng + awayLng / awayLen * degOffset⟩
  else
    let normPerpLat := perpLat / perpLen
    let normPerpLng := perpLng / perpLen
    let midLat := (routePointBefore.lat + routePointAfter.lat) / 2
    let midLng := (routePointBefore.lng + routePointAfter.lng) / 2
    let toHazardLat := hazardPoint.lat - midLat
    let toHazardLng := hazardPoint.lng - midLng
    let dotProduct := toHazardLat * normPerpLat + toHazardLng * normPerpLng
    let direction : α := if 0 ≤ dotProduct then -1 else 1
    let degOffset := offsetMeters / 111000
    ⟨midLat + direction * normPerpLat * degOffset,
     midLng + direction * normPerpLng * degOffset⟩

/-- Index of the polyline point nearest to the hazard (first index attaining
the strict minimum, matching the `<` update in the source's linear scan). -/
def closestPointIndex (dist : LatLng ℚ → LatLng ℚ → ℚ)
    (polylinePoints : List (LatLng ℚ)) (hazardLoc : LatLng ℚ) : Nat :=
  (polylinePoints.enum.foldl (fun (best : Nat × Option ℚ) ip =>
    let d := dist ip.2 hazardLoc
    match best.2 with
    | none => (ip.1, some d)
    | some bd => if d < bd then (ip.1, some d) else best) (0, none)).1

/-- `generateAvoidanceWaypoints` (geo.ts lines 228–266): one waypoint per
nearby hazard, steering around the segment nearest to the hazard. -/
def generateAvoidanceWaypoints (sqrt : ℚ → ℚ) (dist : LatLng ℚ → LatLng ℚ → ℚ)
    (polylinePoints : List (LatLng ℚ)) (nearbyHazards : List NearbyHazard)
    (offsetMeters : ℚ) : List (LatLng ℚ) :=
  if polylinePoints.length < 2 ∨ nearbyHazards = [] then [] else
  nearbyHazards.map (fun hazard =>
    let hazardLoc : LatLng ℚ := ⟨hazard.lat, hazard.lng⟩
    let closestIdx := closestPointIndex dist polylinePoints hazardLoc
    let beforeIdx := closestIdx - 1
    let afterIdx := min (polylinePoints.length - 1) (closestIdx + 1)
    generateAvoidanceWaypoint sqrt (polylinePoints.getD beforeIdx ⟨0, 0⟩)
      (polylinePoints.getD afterIdx ⟨0, 0⟩) hazardLoc offsetMeters)

/-! ## Orchestrator data types (`types.ts`, `routes.ts`) -/

/-- One turn-by-turn step of a `RouteOption`. -/
structure RouteStep where
  instruction : String
  distanceKm : ℚ
  durationMinutes : ℚ
deriving DecidableEq

/-- `RouteOption` (types.ts).  `co2SavedKg`, `co2Kg` and `isHazardAvoiding`
are optional in the TypeScript schema but set by every producer
(`parseGoogleRoutes`, `getMockRoutes`), so they are plain fields here;
`hazardExposureScore` and `nearbyHazards` are attached only by the scoring
step and stay `Option`. -/
structure RouteOption where
  id : String
  name : String
  distanceKm : ℚ
  durationMinutes : ℚ
  isEcoFriendly : Bool
  isHazardAvoiding : Bool
  co2SavedKg : ℚ
  co2Kg : ℚ
  hazardExposureScore : Option Int
  nearbyHazards : Option (List NearbyHazard)
  polyline : String
  steps : List RouteStep
deriving DecidableEq

/-- One step of a Google Directions leg (`html_instructions`, metric
distance value in meters, duration value in seconds). -/
structure DirectionsStep where
  htmlInstructions : String
  distanceValue : ℚ
  durationValue : ℚ
deriving DecidableEq

/-- A Google Directions leg. -/
structure DirectionsLeg where
  distanceValue : ℚ
  durationValue : ℚ
  steps : List DirectionsStep
deriving DecidableEq

/-- A Google Directions route alternative. -/
structure DirectionsRoute where
  summary : String
  legs : List DirectionsLeg
  overviewPolyline : String
deriving DecidableEq

/-- `GoogleDirectionsResponse` (routes.ts), already past the `status` check
of `fetchGoogleDirections` (a non-OK status is a rejected promise, modelled
as `none` at the call sites). -/
structure GoogleDirectionsResponse where
  routes : List DirectionsRoute
deriving DecidableEq

/-! ## `stripHtml` (routes.ts lines 57–65) -/

/-- The `/<[^>]*>/g` replacement: drop every maximal `<`…`>` span (a `<`
with no later `>` cannot match and is kept, as in the regex). -/
def stripTags : List Char → List Char
  | [] => []
  | c :: rest =>
    if (c == '<') && rest.contains '>' then
      stripTags ((rest.dropWhile (fun x => x ≠ '>')).tail)
    else c :: stripTags rest
termination_by l => l.length
decreasing_by
  · simp only [List.length_cons]
    have h1 := (List.dropWhile_sublist (l := rest) (fun x : Char => decide (x ≠ '>'))).length_le
    have h2 := List.length_tail (rest.dropWhile (fun x => x ≠ '>'))
    omega
  · simp only [List.length_cons]
    omega

/-- `stripHtml`: remove tags, decode the four entities, trim. -/
def stripHtml (html : String) : String :=
  (((((String.mk (stripTags html.data)).replace "&nbsp;" " ").replace "&amp;" "&").replace
    "&lt;" "<").replace "&gt;" ">").trim

/-! ## `parseGoogleRoutes` (routes.ts lines 116–170) -/

def CO2_HIGHWAY_KG_PER_KM : ℚ := 21 / 100

def CO2_SURFACE_KG_PER_KM : ℚ := 17 / 100

/-- Build one `RouteOption` from a directions route.  Reading `legs[0]!` of a
route with no legs is a thrown `TypeError` in JavaScript, modelled as
`Except.error`. -/
def parseOneRoute (isEcoFriendly isHazardAvoiding : Bool)
    (fastestDistanceKm : Option ℚ) (index : Nat) (route : DirectionsRoute) :
    Except String RouteOption :=
  match route.legs.head? with
  | none => .error "TypeError: route has no legs"
  | some leg =>
    let distanceKm := leg.distanceValue / 1000
    let durationMinutes := leg.durationValue / 60
    let co2PerKm := if isEcoFriendly then CO2_SURFACE_KG_PER_KM else CO2_HIGHWAY_KG_PER_KM
    let routeCo2 := distanceKm * co2PerKm
    let baselineCo2 := (fastestDistanceKm.getD distanceKm) * CO2_HIGHWAY_KG_PER_KM
    let co2SavedKg := max 0 (jsToFixed 2 (baselineCo2 - routeCo2))
    let steps := leg.steps.map (fun step =>
      { instruction := stripHtml step.htmlInstructions
        distanceKm := jsToFixed 2 (step.distanceValue / 1000)
        durationMinutes := jsToFixed 1 (step.durationValue / 60) : RouteStep })
    let routeName :=
      if isHazardAvoiding && isEcoFriendly then
        "Safe Eco via " ++ (if route.summary = "" then "local roads" else route.summary)
      else if isHazardAvoiding then
        "Safe Route via " ++ (if route.summary = "" then "alternate roads" else route.summary)
      else if isEcoFriendly then
        "Eco-Friendly via " ++ (if route.summary = "" then "local roads" else route.summary)
      else
        "Fastest via " ++ (if route.summary = "" then "highway" else route.summary)
    let suffix := if isHazardAvoiding then "avoid" else if isEcoFriendly then "eco" else "fast"
    .ok {
      id := "route-" ++ suffix ++ "-" ++ toString index
      name := routeName
      distanceKm := jsToFixed 1 distanceKm
      durationMinutes := jsToFixed 0 durationMinutes
      isEcoFriendly := isEcoFriendly
      isHazardAvoiding := isHazardAvoiding
      co2SavedKg := co2SavedKg
      co2Kg := jsToFixed 2 routeCo2
      hazardExposureScore := none
      nearbyHazards := none
      polyline := route.overviewPolyline
      steps := steps }

/-- `data.routes.map(...)` with the index, first thrown error wins. -/
def parseRoutesAux (isEco isHav : Bool) (fkm : Option ℚ) (index : Nat) :
    List DirectionsRoute → Except String (List RouteOption)
  | [] => .ok []
  | r :: rs =>
    match parseOneRoute isEco isHav fkm index r with
    | .error e => .error e
    | .ok x =>
      match parseRoutesAux isEco isHav fkm (index + 1) rs with
      | .error e => .error e
      | .ok xs => .ok (x :: xs)

/-- `parseGoogleRoutes` (routes.ts). -/
def parseGoogleRoutes (data : GoogleDirectionsResponse) (isEco isHav : Bool)
    (fkm : Option ℚ) : Except String (List RouteOption) :=
  parseRoutesAux isEco isHav fkm 0 data.routes

/-! ## `getMockRoutes` (mockData.ts lines 632–674) -/

/-- The two built-in synthetic fallback route candidates. -/
def getMockRoutes (origin destination : String) : List RouteOption :=
  let mockPolyline := "a~l~Fjk~uOwHJy@P"
  let originHead := (origin.splitOn ",").headD ""
  let destinationHead := (destination.splitOn ",").headD ""
  [ { id := "route-fast-0", name := "Fastest via I-85",
      distanceKm := 185 / 10, durationMinutes := 22,
      isEcoFriendly := false, isHazardAvoiding := false,
      co2SavedKg := 0, co2Kg := 389 / 100,
      hazardExposureScore := some 15, nearbyHazards := none,
      polyline := mockPolyline,
      steps := [
        { instruction := "Head northeast on " ++ originHead, distanceKm := 1 / 2,
          durationMinutes := 2 },
        { instruction := "Merge onto I-85 N", distanceKm := 12, durationMinutes := 12 },
        { instruction := "Take exit toward destination", distanceKm := 3, durationMinutes := 5 },
        { instruction := "Arrive at " ++ destinationHead, distanceKm := 3,
          durationMinutes := 3 } ] },
    { id := "route-eco-0", name := "Eco-Friendly via local roads",
      distanceKm := 162 / 10, durationMinutes := 28,
      isEcoFriendly := true, isHazardAvoiding := false,
      co2SavedKg := 58 / 100, co2Kg := 275 / 100,
      hazardExposureScore := some 8, nearbyHazards := none,
      polyline := mockPolyline,
      steps := [
        { instruction := "Head northeast on " ++ originHead, distanceKm := 1 / 2,
          durationMinutes := 2 },
        { instruction := "Continue on Peachtree Rd", distanceKm := 8, durationMinutes := 15 },
        { instruction := "Turn right onto destination road", distanceKm := 47 / 10,
          durationMinutes := 8 },
        { instruction := "Arrive at " ++ destinationHead, distanceKm := 3,
          durationMinutes := 3 } ] } ]

/-! ## Scoring and avoidance passes of the planning endpoint
(`routesRouter.post("/plan")`, routes.ts) -/

def HAZARD_RADIUS_METERS : ℚ := 500

/-- Step 4 of the endpoint, for one route: decode the polyline, find nearby
hazards within 500 m, attach them and the exposure score. -/
def scoreRoute (dist : LatLng ℚ → LatLng ℚ → ℚ) (hazards : List HazardPoint)
    (route : RouteOption) : RouteOption :=
  let polylinePoints := decodePolyline route.polyline
  let nearby := findNearbyHazards dist polylinePoints hazards HAZARD_RADIUS_METERS
  { route with nearbyHazards := some nearby,
               hazardExposureScore := some (calculateHazardExposureScore nearby) }

def scoreRoutes (dist : LatLng ℚ → LatLng ℚ → ℚ) (hazards : List HazardPoint)
    (routes : List RouteOption) : List RouteOption :=
  routes.map (scoreRoute dist hazards)

/-- `RouteRequest` after zod validation (`preferEco` defaults to `false`,
`avoidHazards` to `true`). -/
structure RouteRequest where
  origin : String
  destination : String
  originLat : Option ℚ := none
  originLng : Option ℚ := none
  destLat : Option ℚ := none
  destLng : Option ℚ := none
  preferEco : Bool := false
  avoidHazards : Bool := true

/-- The second half of step 2 of the endpoint, after the fast branch
produced `fastRoutes`: parse the eco response (CO2 baseline taken from the
fastest candidate's distance), concatenate, and substitute the mock routes
when no candidate was produced. -/
def buildBaseRoutesAfterFast (fastRoutes : List RouteOption)
    (ecoDirections : Option GoogleDirectionsResponse)
    (origin destination : String) :
    Except String (List RouteOption × Option ℚ) :=
  let fastestDistanceKm := fastRoutes.head?.map (fun r => r.distanceKm)
  match ecoDirections with
  | some d =>
    match parseGoogleRoutes d true false fastestDistanceKm with
    | .error e => .error e
    | .ok parsed =>
      let routes := fastRoutes ++ parsed.take 1
      .ok ((if routes = [] then getMockRoutes origin destination else routes),
        fastestDistanceKm)
  | none =>
    let routes := fastRoutes ++ []
    .ok ((if routes = [] then getMockRoutes origin destination else routes),
      fastestDistanceKm)

/-- Step 2 of the endpoint: one base candidate per successful directions
response (first alternative only), `fastestDistanceKm` captured between the
two pushes, and the mock-route substitution when no candidate was produced.
A parse error on a fulfilled response propagates (outer `catch`). -/
def buildBaseRoutes (fastDirections ecoDirections : Option GoogleDirectionsResponse)
    (origin destination : String) :
    Except String (List RouteOption × Option ℚ) :=
  match fastDirections with
  | some d =>
    match parseGoogleRoutes d false false none with
    | .error e => .error e
    | .ok parsed => buildBaseRoutesAfterFast (parsed.take 1) ecoDirections origin destination
  | none => buildBaseRoutesAfterFast [] ecoDirections origin destination

/-- Step 5 of the endpoint, for one base candidate: synthesize waypoints from
its nearby hazards, re-query the directions provider through them
(`avoidFetch` oracle; `none` models a rejected request, swallowed by the
inner `try/catch` as is a parse error), re-score the first returned
alternative, and keep it only if its exposure score is strictly lower than
the base candidate's (`?? 100`). -/
def avoidanceCandidate (sqrt : ℚ → ℚ) (dist : LatLng ℚ → LatLng ℚ → ℚ)
    (avoidFetch : Bool → List (LatLng ℚ) → Option GoogleDirectionsResponse)
    (hazards : List HazardPoint) (fastestDistanceKm : Option ℚ)
    (route : RouteOption) : Option RouteOption :=
  let nearby := route.nearbyHazards.getD []
  if nearby = [] then none else
  let polylinePoints := decodePolyline route.polyline
  let waypoints := generateAvoidanceWaypoints sqrt dist polylinePoints nearby 1500
  if waypoints = [] then none else
  let limitedWaypoints := waypoints.take 5
  match avoidFetch route.isEcoFriendly limitedWaypoints with
  | none => none
  | some avoidDirections =>
    match parseGoogleRoutes avoidDirections route.isEcoFriendly true fastestDistanceKm with
    | .error _ => none
    | .ok avoidRoutes =>
      match avoidRoutes.head? with
      | none => none
      | some first =>
        let scored := scoreRoute dist hazards first
        match scored.hazardExposureScore with
        | none => none
        | some s =>
          if s < route.hazardExposureScore.getD 100 then some scored else none

/-- Step 5 of the endpoint: the avoidance pass appends, to the snapshot of
the scored base candidates, every avoidance candidate that improves on its
source; it runs only when the request's `avoidHazards` flag is set and at
least one hazard exists. -/
def avoidancePass (sqrt : ℚ → ℚ) (dist : LatLng ℚ → LatLng ℚ → ℚ)
    (avoidFetch : Bool → List (LatLng ℚ) → Option GoogleDirectionsResponse)
    (avoidHazards : Bool) (hazards : List HazardPoint)
    (fastestDistanceKm : Option ℚ) (routes : List RouteOption) :
    List RouteOption :=
  if avoidHazards ∧ hazards ≠ [] then
    routes ++ routes.filterMap (avoidanceCandidate sqrt dist avoidFetch hazards fastestDistanceKm)
  else routes

/-- Steps 2–5 of `routesRouter.post("/plan")`: the `routes` array of the
response.  `fastDirections`/`ecoDirections`/`allHazards` are the settled
outcomes of the fan-out (`none` = rejected). -/
def planRoutes (sqrt : ℚ → ℚ) (dist : LatLng ℚ → LatLng ℚ → ℚ)
    (avoidFetch : Bool → List (LatLng ℚ) → Option GoogleDirectionsResponse)
    (fastDirections ecoDirections : Option GoogleDirectionsResponse)
    (allHazards : Option (List HazardPoint)) (request : RouteRequest) :
    Except String (List RouteOption) :=
  match buildBaseRoutes fastDirections ecoDirections request.origin request.destination with
  | .error e => .error e
  | .ok br =>
    let hazards := allHazards.getD []
    let scored := scoreRoutes dist hazards br.1
    .ok (avoidancePass sqrt dist avoidFetch request.avoidHazards hazards br.2 scored)

/-! ## Recommendation (`generateRouteRecommendation` tail, gemini.ts lines
295–311, and `generateFallbackRecommendation`, routes.ts lines 383–442) -/

/-- `EnvironmentalData` (types.ts). -/
structure EnvironmentalData where
  airQualityIndex : ℚ
  airQualityDescription : String
  temperature : ℚ
  weatherCondition : String
  humidity : ℚ
  uvIndex : Option ℚ := none

/-- `GeminiRecommendation` (types.ts). -/
structure GeminiRecommendation where
  recommendedRouteId : String
  reasoning : String
  healthAdvisory : Option String
  safetyScore : ℚ
  ecoScore : ℚ

/-- The JSON object parsed from the external reasoner's reply (already
coerced to numbers/strings; JavaScript falsy checks on the string fields are
modelled as emptiness checks, `Number(x) || 50` as a zero check). -/
structure ParsedGeminiReply where
  recommendedRouteId : String
  reasoning : String
  healthAdvisory : Option String
  safetyScore : ℚ
  ecoScore : ℚ

/-- The validation/normalization tail of `generateRouteRecommendation`
(gemini.ts lines 295–311): substitute the first candidate's id when the
returned id is not among the supplied candidates, default the prose fields,
clamp the scores. -/
def finalizeRecommendation (routes : List RouteOption)
    (parsed : ParsedGeminiReply) : GeminiRecommendation :=
  let validRouteIds := routes.map (fun r => r.id)
  let recommendedId :=
    if parsed.recommendedRouteId ∈ validRouteIds then parsed.recommendedRouteId
    else (routes.head?.map (fun r => r.id)).getD "unknown"
  { recommendedRouteId := recommendedId
    reasoning :=
      if parsed.reasoning = "" then "Unable to generate detailed recommendation."
      else parsed.reasoning
    healthAdvisory := match parsed.healthAdvisory with
      | some s => if s = "" then none else some s
      | none => none
    safetyScore := min 100 (max 0 (if parsed.safetyScore = 0 then 50 else parsed.safetyScore))
    ecoScore := min 100 (max 0 (if parsed.ecoScore = 0 then 50 else parsed.ecoScore)) }

/-- `generateFallbackRecommendation` (routes.ts): the deterministic policy —
safe-eco (if eco preferred) > safe (if hazards exist) > eco (if preferred) >
fastest/default.  The sequential early returns are encoded as an
`Option.orElse` chain. -/
def generateFallbackRecommendation (routes : List RouteOption)
    (environmental : EnvironmentalData) (hazards : List HazardPoint)
    (preferEco : Bool) : GeminiRecommendation :=
  match routes.head? with
  | none =>
    { recommendedRouteId := "unknown", reasoning := "No routes available.",
      healthAdvisory := none, safetyScore := 0, ecoScore := 0 }
  | some defaultRoute =>
    let safeRoute := routes.find? (fun r => r.isHazardAvoiding)
    let ecoRoute := routes.find? (fun r => r.isEcoFriendly && !r.isHazardAvoiding)
    let safeEcoRoute := routes.find? (fun r => r.isEcoFriendly && r.isHazardAvoiding)
    let fastestRoute := routes.find? (fun r => !r.isEcoFriendly && !r.isHazardAvoiding)
    let activeHazards := hazards.length
    let branch1 : Option GeminiRecommendation :=
      if preferEco then
        safeEcoRoute.map (fun r =>
          { recommendedRouteId := r.id
            reasoning := "The safest eco-friendly route avoids " ++ toString activeHazards ++
              " hazard(s) and saves " ++ toString r.co2SavedKg ++
              "kg CO2. Estimated emissions: " ++ toString r.co2Kg ++
              "kg CO2. Current AQI: " ++ toString environmental.airQualityIndex ++ "."
            healthAdvisory := none, safetyScore := 90, ecoScore := 92 })
      else none
    let branch2 : Option GeminiRecommendation :=
      if 0 < activeHazards then
        safeRoute.map (fun r =>
          { recommendedRouteId := r.id
            reasoning := toString activeHazards ++
              " hazard(s) detected near standard routes. This alternate route avoids them with exposure score of " ++
              toString (r.hazardExposureScore.getD 0) ++ "/100. Estimated emissions: " ++
              toString r.co2Kg ++ "kg CO2."
            healthAdvisory := none, safetyScore := 88,
            ecoScore := if r.isEcoFriendly then 85 else 50 })
      else none
    let branch3 : Option GeminiRecommendation :=
      if preferEco then
        ecoRoute.map (fun r =>
          { recommendedRouteId := r.id
            reasoning := "The eco-friendly route saves approximately " ++
              toString r.co2SavedKg ++ "kg CO2 (" ++ toString r.co2Kg ++
              "kg total). Current conditions: " ++ environmental.weatherCondition ++
              " at " ++ toString environmental.temperature ++ "°F with AQI " ++
              toString environmental.airQualityIndex ++ "."
            healthAdvisory := none, safetyScore := 85, ecoScore := 92 })
      else none
    (((branch1.orElse (fun _ => branch2)).orElse (fun _ => branch3))).getD
      { recommendedRouteId := ((fastestRoute.map (fun r => r.id)).getD defaultRoute.id)
        reasoning := "The fastest route is recommended with " ++
          toString ((fastestRoute.getD defaultRoute).co2Kg) ++
          "kg CO2 emissions. Current conditions: " ++ environmental.weatherCondition ++
          " at " ++ toString environmental.temperature ++
          "°F. Traffic conditions appear normal."
        healthAdvisory := none, safetyScore := 85, ecoScore := 45 }

/-! ## Statement helpers for the geometric claims -/

/-- Midpoint of the route segment, as computed inside
`generateAvoidanceWaypoint`. -/
noncomputable def segmentMidpoint (before after : LatLng ℝ) : LatLng ℝ :=
  ⟨(before.lat + after.lat) / 2, (before.lng + after.lng) / 2⟩

/-- Signed component of `p − midpoint` along the normalized perpendicular of
the segment `before → after`, exactly the quantity the source's `dotProduct`
computes for the hazard ("which side of the route"). -/
noncomputable def perpComponent (before after p : LatLng ℝ) : ℝ :=
  let routeDLat := after.lat - before.lat
  let routeDLng := after.lng - before.lng
  let perpLat := -routeDLng
  let perpLng := routeDLat
  let perpLen := Real.sqrt (perpLat * perpLat + perpLng * perpLng)
  let midLat := (before.lat + after.lat) / 2
  let midLng := (before.lng + after.lng) / 2
  (p.lat - midLat) * (perpLat / perpLen) + (p.lng - midLng) * (perpLng / perpLen)

/-- Squared euclidean distance in degree space (the geometry in which the
waypoint offsets are computed). -/
noncomputable def sqDegreeDist (p q : LatLng ℝ) : ℝ :=
  (p.lat - q.lat) ^ 2 + (p.lng - q.lng) ^ 2

/-! ## Concrete fixtures used by counterexamples and witnesses -/

/-- A two-point path: the sampling stride is 1 and no extra last point is
appended, so exactly these two points are scanned. -/
def cexPath : List (LatLng ℚ) := [⟨0, 0⟩, ⟨1, 0⟩]

/-- Hazard at marker latitude 10 (the "near" hazard position). -/
def cexHazardNear : HazardPoint :=
  { id := "hazard-near", lat := 10, lng := 0, type := "Crash", severity := 5,
    description := "near position", source := .camera }

/-- Hazard at marker latitude 20 (the "far" hazard position: at least as far
from every sampled path point as the near one). -/
def cexHazardFar : HazardPoint :=
  { id := "hazard-far", lat := 20, lng := 0, type := "Crash", severity := 5,
    description := "far position", source := .camera }

/-- A concrete distance oracle (a realizable configuration: the required
distances satisfy the triangle inequalities for points ~200 m apart).
The far hazard is at least as far as the near one from BOTH path points, yet
the early exit reports 200 m for the near hazard (break at the first point)
and 100 m for the far one (break only at the second point). -/
def cexDist (p h : LatLng ℚ) : ℚ :=
  if p.lat = 0 ∧ h.lat = 10 then 200
  else if p.lat = 1 ∧ h.lat = 10 then 10
  else if p.lat = 0 ∧ h.lat = 20 then 260
  else if p.lat = 1 ∧ h.lat = 20 then 100
  else 1000

/-- A scored hazard 100 m from the route with severity 5. -/
def witnessNearbyHazard : NearbyHazard :=
  { id := "w1", lat := 0, lng := 0, type := "Flood", severity := 5,
    description := "witness hazard", source := .report, distanceMeters := 100 }

/-- A distance oracle keeping every hazard far outside the 500 m radius. -/
def witnessFarDist (_p _h : LatLng ℚ) : ℚ := 1000

/-- A `Math.sqrt` oracle for pipeline witnesses (its value is irrelevant to
the statements evaluated on it). -/
def witnessSqrt (q : ℚ) : ℚ := q

/-- A directions oracle whose every re-query fails. -/
def witnessNoFetch (_eco : Bool) (_wps : List (LatLng ℚ)) :
    Option GoogleDirectionsResponse := none

/-- A planning request with hazard avoidance switched off. -/
def witnessRequestNoAvoid : RouteRequest :=
  { origin := "Georgia Tech, Atlanta", destination := "Piedmont Park, Atlanta",
    preferEco := false, avoidHazards := false }

/-- A planning request with hazard avoidance on (the zod default). -/
def witnessRequestAvoid : RouteRequest :=
  { origin := "Georgia Tech, Atlanta", destination := "Piedmont Park, Atlanta" }

/-- A one-candidate route list for the recommendation witnesses. -/
def witnessRoute : RouteOption :=
  { id := "route-fast-0", name := "Fastest via I-85", distanceKm := 10,
    durationMinutes := 15, isEcoFriendly := false, isHazardAvoiding := false,
    co2SavedKg := 0, co2Kg := 21 / 10, hazardExposureScore := some 0,
    nearbyHazards := some [], polyline := "poly", steps := [] }

/-- A reasoner reply naming an id that is not among the candidates. -/
def witnessParsedReply : ParsedGeminiReply :=
  { recommendedRouteId := "route-bogus-7", reasoning := "made up",
    healthAdvisory := none, safetyScore := 80, ecoScore := 60 }

/-- A neutral environmental snapshot for the recommendation witnesses. -/
def witnessEnvironmental : EnvironmentalData :=
  { airQualityIndex := 42, airQualityDescription := "Good",
    temperature := 70, weatherCondition := "Clear Sky", humidity := 50 }

instance : IsTotal NearbyHazard (fun a b => a.distanceMeters ≤ b.distanceMeters) :=
  ⟨fun _ _ => le_total _ _⟩

instance : IsTrans NearbyHazard (fun a b => a.distanceMeters ≤ b.distanceMeters) :=
  ⟨fun _ _ _ => le_trans⟩

/-! # Supporting lemmas -/

theorem readCodeword_length_le (acc shift : Nat) (l : List Nat) :
    (readCodeword acc shift l).2.length ≤ l.length := by
  induction l generalizing acc shift with
  | nil => simp [readCodeword]
  | cons c rest ih =>
    simp only [readCodeword]
    split
    · exact Nat.le_succ_of_le (ih _ _)
    · exact Nat.le_succ _

theorem readCodeword_cons_length_le (acc shift c : Nat) (rest : List Nat) :
    (readCodeword acc shift (c :: rest)).2.length ≤ rest.length := by
  simp only [readCodeword]
  split
  · exact readCodeword_length_le _ _ _
  · exact Nat.le_refl _

/-- Any fuel of at least `l.length` produces the same decode, i.e. the
out-of-fuel branch of `decodeLoop` is never reached from `decodePolyline`. -/
theorem decodeLoop_fuel_irrelevant :
    ∀ (fuel fuel' : Nat) (l : List Nat) (lat lng : Int), l.length ≤ fuel →
      l.length ≤ fuel' → decodeLoop fuel l lat lng = decodeLoop fuel' l lat lng := by
  intro fuel
  induction fuel with
  | zero =>
    intro fuel' l lat lng h _
    rw [List.length_eq_zero.mp (Nat.le_zero.mp h)]
    cases fuel' <;> rfl
  | succ fuel ih =>
    intro fuel' l lat lng h h'
    match l with
    | [] => cases fuel' <;> rfl
    | c :: rest =>
      match fuel' with
      | 0 => simp at h'
      | fuel' + 1 =>
        simp only [decodeLoop]
        refine congrArg _ (ih fuel' _ _ _ ?_ ?_) <;>
        · have := Nat.le_trans (readCodeword_length_le 0 0 (readCodeword 0 0 (c :: rest)).2)
            (readCodeword_cons_length_le 0 0 c rest)
          simp only [List.length_cons] at h h'
          omega

/-! # Claims

Each claim of the specification review is settled by exactly one theorem
below (with a witness when it has hypotheses, and a counterexample when the
claim as stated fails on the code). -/

/-! ## C1 — decoding a string that ends mid-codeword -/

/-- **C1, counterexample.**  The claim states that on an encoded path ending
mid-codeword `decodePolyline` "fails with a MalformedPathError rather than
returning a coordinate sequence".  The code has no error path at all: on
`"_"` (one character, continuation bit set, no further character) it returns
the one-point coordinate sequence `[(0, 0)]` — `charCodeAt` past the end of
the string yields `NaN`, which contributes zero bits and ends the codeword. -/
theorem decodePolyline_midCodeword_returns_points :
    endsMidCodeword "_" = true ∧ decodePolyline "_" = [⟨0, 0⟩] :=
  ⟨by decide, by with_unfolding_all decide⟩

/-- **C1 (amended).**  `decodePolyline` never fails: it is a total function
into coordinate lists, and on every encoded string that ends mid-codeword it
still returns a (nonempty) coordinate sequence, the truncated trailing
codeword decoding as if terminated by the out-of-range reads. -/
theorem decodePolyline_never_fails_on_midCodeword (s : String)
    (h : endsMidCodeword s = true) : 1 ≤ (decodePolyline s).length := by
  unfold decodePolyline
  unfold endsMidCodeword at h
  cases hd : s.data with
  | nil => rw [hd] at h; simp at h
  | cons c rest =>
    simp only [List.map_cons, List.length_cons, decodeLoop, List.length]
    omega

/-- **C1, witness** for the amended theorem at the concrete input `"_"`. -/
theorem decodePolyline_never_fails_on_midCodeword_witness :
    endsMidCodeword "_" = true ∧ 1 ≤ (decodePolyline "_").length :=
  ⟨by decide, decodePolyline_never_fails_on_midCodeword "_" (by decide)⟩

/-! ## C2 — exposure score bounds -/

theorem exposureSum_nonneg (l : List NearbyHazard)
    (hb : ∀ h ∈ l, 0 ≤ h.distanceMeters ∧ h.distanceMeters ≤ 500 ∧
      0 ≤ h.severity ∧ h.severity ≤ 10) :
    ∀ acc : ℚ, 0 ≤ acc →
      0 ≤ l.foldl (fun acc hazard =>
        acc + (1 - hazard.distanceMeters / 500) * (hazard.severity / 10) * 30) acc := by
  induction l with
  | nil => intro acc hacc; simpa using hacc
  | cons a l ih =>
    intro acc hacc
    simp only [List.foldl_cons]
    refine ih (fun h hm => hb h (List.mem_cons_of_mem _ hm)) _ ?_
    obtain ⟨hd0, hd500, hs0, _⟩ := hb a (List.mem_cons_self _ _)
    have h1 : 0 ≤ 1 - a.distanceMeters / 500 := by
      have : a.distanceMeters / 500 ≤ 1 := by
        rw [div_le_one (by norm_num)]; exact hd500
      linarith
    have h2 : 0 ≤ a.severity / 10 := by positivity
    have h3 : 0 ≤ (1 - a.distanceMeters / 500) * (a.severity / 10) * 30 := by
      have := mul_nonneg h1 h2
      linarith [mul_nonneg this (by norm_num : (0:ℚ) ≤ 30)]
    linarith

/-- **C2.**  For the empty hazard list the score is exactly 0; for every
list of scored hazards with `distanceMeters ∈ [0, 500]` (guaranteed by the
indexer's 500 m radius) and `severity ∈ [0, 10]` (guaranteed by the hazard
schema), the score lies in `[0, 100]`. -/
theorem calculateHazardExposureScore_bounds (l : List NearbyHazard)
    (hb : ∀ h ∈ l, 0 ≤ h.distanceMeters ∧ h.distanceMeters ≤ 500 ∧
      0 ≤ h.severity ∧ h.severity ≤ 10) :
    calculateHazardExposureScore [] = 0 ∧
    0 ≤ calculateHazardExposureScore l ∧ calculateHazardExposureScore l ≤ 100 := by
  refine ⟨rfl, ?_, ?_⟩
  · by_cases hl : l = []
    · subst hl; simp [calculateHazardExposureScore]
    · simp only [calculateHazardExposureScore, if_neg hl]
      refine le_min (by norm_num) ?_
      have hsum := exposureSum_nonneg l hb 0 le_rfl
      unfold jsRound
      exact Int.le_floor.mpr (by push_cast; linarith)
  · by_cases hl : l = []
    · subst hl; simp [calculateHazardExposureScore]
    · simp only [calculateHazardExposureScore, if_neg hl]
      exact min_le_left _ _

/-- **C2, witness** at a concrete one-hazard list (severity 5 at 100 m). -/
theorem calculateHazardExposureScore_bounds_witness :
    calculateHazardExposureScore [] = 0 ∧
    0 ≤ calculateHazardExposureScore [witnessNearbyHazard] ∧
    calculateHazardExposureScore [witnessNearbyHazard] ≤ 100 :=
  calculateHazardExposureScore_bounds [witnessNearbyHazard] (by
    intro h hm
    rw [List.mem_singleton] at hm
    subst hm
    refine ⟨?_, ?_, ?_, ?_⟩ <;> with_unfolding_all decide)

/-! ## C3 — proximity monotonicity -/

/-- **C3, counterexample.**  Moving a hazard farther away CAN decrease the
reported `distanceMeters`, because of the early exit: on the two-point path
`cexPath` (whose sampling is the identity, third conjunct), the far hazard is
at least as far as the near one from both sampled points (first conjuncts),
both stay within the 500 m radius, yet `findNearbyHazards` reports 200 m for
the near hazard (it breaks at the first point, never seeing the 10 m
minimum) and 100 m for the far one (it breaks only at the second point). -/
theorem findNearbyHazards_distance_not_monotone :
    (cexDist ⟨0, 0⟩ ⟨10, 0⟩ ≤ cexDist ⟨0, 0⟩ ⟨20, 0⟩ ∧
     cexDist ⟨1, 0⟩ ⟨10, 0⟩ ≤ cexDist ⟨1, 0⟩ ⟨20, 0⟩) ∧
    samplePoints cexPath = cexPath ∧
    (findNearbyHazards cexDist cexPath [cexHazardNear, cexHazardFar] 500).map
      (fun h => (h.id, h.distanceMeters)) =
      [("hazard-far", 100), ("hazard-near", 200)] ∧
    ¬ ((200 : ℚ) ≤ 100) := by
  refine ⟨⟨?_, ?_⟩, ?_, ?_, ?_⟩ <;> with_unfolding_all decide

theorem fullScanAux_monotone (dist : LatLng ℚ → LatLng ℚ → ℚ) (h1 h2 : LatLng ℚ) :
    ∀ (sampled : List (LatLng ℚ)) (a1 a2 : ℚ),
      (∀ p ∈ sampled, dist p h1 ≤ dist p h2) → a1 ≤ a2 →
      ∀ m1 m2 : ℚ, sampled.foldl (fullScanStep dist h1) (some a1) = some m1 →
        sampled.foldl (fullScanStep dist h2) (some a2) = some m2 → m1 ≤ m2 := by
  intro sampled
  induction sampled with
  | nil =>
    intro a1 a2 _ hle m1 m2 hm1 hm2
    simp only [List.foldl_nil, Option.some.injEq] at hm1 hm2
    rw [← hm1, ← hm2]
    exact hle
  | cons p rest ih =>
    intro a1 a2 hfar hle m1 m2 hm1 hm2
    simp only [List.foldl_cons, fullScanStep] at hm1 hm2
    refine ih _ _ (fun q hq => hfar q (List.mem_cons_of_mem _ hq)) ?_ m1 m2 hm1 hm2
    have hd := hfar p (List.mem_cons_self _ _)
    split_ifs <;> linarith

/-- **C3 (amended).**  For a fixed path, moving a hazard at least as far from
EVERY sampled point never decreases the true (full-scan) minimum sampled
distance; it is the early-exit-reported `distanceMeters` that can decrease
(see the counterexample). -/
theorem fullScanMinDistance_monotone (dist : LatLng ℚ → LatLng ℚ → ℚ)
    (sampled : List (LatLng ℚ)) (h1 h2 : LatLng ℚ)
    (hfar : ∀ p ∈ sampled, dist p h1 ≤ dist p h2) (m1 m2 : ℚ)
    (hm1 : fullScanMinDistance dist h1 sampled = some m1)
    (hm2 : fullScanMinDistance dist h2 sampled = some m2) : m1 ≤ m2 := by
  cases sampled with
  | nil => simp [fullScanMinDistance] at hm1
  | cons p rest =>
    unfold fullScanMinDistance at hm1 hm2
    simp only [List.foldl_cons] at hm1 hm2
    have e1 : fullScanStep dist h1 none p = some (dist p h1) := rfl
    have e2 : fullScanStep dist h2 none p = some (dist p h2) := rfl
    rw [e1] at hm1
    rw [e2] at hm2
    exact fullScanAux_monotone dist h1 h2 rest (dist p h1) (dist p h2)
      (fun q hq => hfar q (List.mem_cons_of_mem _ hq))
      (hfar p (List.mem_cons_self _ _)) m1 m2 hm1 hm2

/-- **C3, witness** for the amended theorem on the concrete fixture. -/
theorem fullScanMinDistance_monotone_witness :
    fullScanMinDistance cexDist ⟨10, 0⟩ cexPath = some 10 ∧
    fullScanMinDistance cexDist ⟨20, 0⟩ cexPath = some 100 ∧ (10 : ℚ) ≤ 100 :=
  ⟨by with_unfolding_all decide, by with_unfolding_all decide,
   fullScanMinDistance_monotone cexDist cexPath ⟨10, 0⟩ ⟨20, 0⟩
     (by intro p hp
         simp only [cexPath, List.mem_cons, List.not_mem_nil, or_false] at hp
         rcases hp with rfl | rfl <;> with_unfolding_all decide)
     10 100 (by with_unfolding_all decide) (by with_unfolding_all decide)⟩

/-! ## C6 — the early exit does not change which hazards qualify -/

theorem foldl_fullScanStep_le (dist : LatLng ℚ → LatLng ℚ → ℚ) (hloc : LatLng ℚ) :
    ∀ (pts : List (LatLng ℚ)) (a : ℚ),
      ∃ m, pts.foldl (fullScanStep dist hloc) (some a) = some m ∧ m ≤ a := by
  intro pts
  induction pts with
  | nil => intro a; exact ⟨a, rfl, le_rfl⟩
  | cons p rest ih =>
    intro a
    simp only [List.foldl_cons, fullScanStep]
    obtain ⟨m, hm, hle⟩ := ih (if dist p hloc < a then dist p hloc else a)
    refine ⟨m, hm, le_trans hle ?_⟩
    split_ifs with h
    · exact le_of_lt h
    · exact le_rfl

theorem scanAux_qualifies_eq (dist : LatLng ℚ → LatLng ℚ → ℚ) (hloc : LatLng ℚ)
    (radius : ℚ) (hdist : ∀ p, 0 ≤ dist p hloc) :
    ∀ (pts : List (LatLng ℚ)) (a : ℚ), 0 ≤ a →
      qualifiesWithin (scanMinAux dist hloc radius (some a) pts) radius =
      qualifiesWithin (pts.foldl (fullScanStep dist hloc) (some a)) radius := by
  intro pts
  induction pts with
  | nil => intro a _; rfl
  | cons p rest ih =>
    intro a ha
    simp only [scanMinAux, List.foldl_cons, fullScanStep]
    have hb0 : 0 ≤ (if dist p hloc < a then dist p hloc else a) := by
      split_ifs
      · exact hdist p
      · exact ha
    by_cases hbr : (if dist p hloc < a then dist p hloc else a) < radius * (1 / 2)
    · rw [if_pos hbr]
      obtain ⟨m, hm, hle⟩ := foldl_fullScanStep_le dist hloc rest
        (if dist p hloc < a then dist p hloc else a)
      rw [hm]
      have hrad : (if dist p hloc < a then dist p hloc else a) ≤ radius := by nlinarith
      have hmrad : m ≤ radius := le_trans hle hrad
      simp [qualifiesWithin, hrad, hmrad]
    · rw [if_neg hbr]
      exact ih _ hb0

theorem scan_qualifies_eq_full (dist : LatLng ℚ → LatLng ℚ → ℚ)
    (hdist : ∀ p h, 0 ≤ dist p h) (hloc : LatLng ℚ) (radius : ℚ)
    (pts : List (LatLng ℚ)) :
    qualifiesWithin (scanMinDistance dist hloc radius pts) radius =
    qualifiesWithin (fullScanMinDistance dist hloc pts) radius := by
  cases pts with
  | nil => rfl
  | cons p rest =>
    unfold scanMinDistance fullScanMinDistance
    simp only [scanMinAux, List.foldl_cons, fullScanStep]
    by_cases hbr : dist p hloc < radius * (1 / 2)
    · rw [if_pos hbr]
      obtain ⟨m, hm, hle⟩ := foldl_fullScanStep_le dist hloc rest (dist p hloc)
      rw [hm]
      have h0 := hdist p hloc
      have h1 : dist p hloc ≤ radius := by nlinarith
      have h2 : m ≤ radius := le_trans hle h1
      simp [qualifiesWithin, h1, h2]
    · rw [if_neg hbr]
      exact scanAux_qualifies_eq dist hloc radius (fun q => hdist q hloc) rest
        (dist p hloc) (hdist p hloc)

theorem mapSet_map_id (acc : List NearbyHazard) (e : NearbyHazard) :
    (mapSet acc e).map (fun x => x.id) =
      if e.id ∈ acc.map (fun x => x.id) then acc.map (fun x => x.id)
      else acc.map (fun x => x.id) ++ [e.id] := by
  unfold mapSet
  by_cases hany : (acc.any fun x => x.id = e.id) = true
  · rw [if_pos hany]
    have hmem : e.id ∈ acc.map (fun x => x.id) := by
      obtain ⟨x, hx, hxe⟩ := List.any_eq_true.mp hany
      exact List.mem_map.mpr ⟨x, hx, of_decide_eq_true hxe⟩
    rw [if_pos hmem, List.map_map]
    refine List.map_congr_left ?_
    intro x _
    by_cases h : x.id = e.id <;> simp [h]
  · rw [if_neg hany]
    have hmem : e.id ∉ acc.map (fun x => x.id) := by
      intro hc
      obtain ⟨x, hx, hxe⟩ := List.mem_map.mp hc
      exact hany (List.any_eq_true.mpr ⟨x, hx, decide_eq_true hxe⟩)
    rw [if_neg hmem, List.map_append]
    rfl

/-- The id list after one `nearbyStep`: unchanged when the hazard does not
qualify or its id is already present, extended by its id otherwise. -/
theorem nearbyStep_map_id (dist : LatLng ℚ → LatLng ℚ → ℚ) (radius : ℚ)
    (sampledPoints : List (LatLng ℚ)) (acc : List NearbyHazard)
    (hz : HazardPoint) :
    (nearbyStep dist radius sampledPoints acc hz).map (fun x => x.id) =
      if qualifiesWithin (scanMinDistance dist ⟨hz.lat, hz.lng⟩ radius sampledPoints)
          radius = true then
        (if hz.id ∈ acc.map (fun x => x.id) then acc.map (fun x => x.id)
         else acc.map (fun x => x.id) ++ [hz.id])
      else acc.map (fun x => x.id) := by
  simp only [nearbyStep]
  split
  next heq =>
    rw [heq]
    simp [qualifiesWithin]
  next m heq =>
    rw [heq]
    by_cases hmr : m ≤ radius
    · rw [if_pos hmr, mapSet_map_id]
      simp [qualifiesWithin, hmr]
    · rw [if_neg hmr]
      simp [qualifiesWithin, hmr]

theorem foldl_nearby_map_id (dist : LatLng ℚ → LatLng ℚ → ℚ) (radius : ℚ)
    (sampledPoints : List (LatLng ℚ)) :
    ∀ (hazards : List HazardPoint) (acc : List NearbyHazard) (i : String),
      (i ∈ (hazards.foldl (nearbyStep dist radius sampledPoints) acc).map
          (fun x => x.id)) ↔
        (i ∈ acc.map (fun x => x.id) ∨ ∃ hz ∈ hazards, hz.id = i ∧
          qualifiesWithin (scanMinDistance dist ⟨hz.lat, hz.lng⟩ radius sampledPoints)
            radius = true) := by
  intro hazards
  induction hazards with
  | nil => intro acc i; simp
  | cons hz hs ih =>
    intro acc i
    simp only [List.foldl_cons]
    rw [ih]
    simp only [List.exists_mem_cons_iff]
    have hstep := nearbyStep_map_id dist radius sampledPoints acc hz
    by_cases hq : qualifiesWithin (scanMinDistance dist ⟨hz.lat, hz.lng⟩ radius
        sampledPoints) radius = true
    · rw [if_pos hq] at hstep
      by_cases hin : hz.id ∈ acc.map (fun x => x.id)
      · rw [if_pos hin] at hstep
        rw [hstep]
        constructor
        · rintro (h | h)
          · exact Or.inl h
          · exact Or.inr (Or.inr h)
        · rintro (h | ⟨h1, _⟩ | h)
          · exact Or.inl h
          · exact Or.inl (h1 ▸ hin)
          · exact Or.inr h
      · rw [if_neg hin] at hstep
        rw [hstep]
        simp only [List.mem_append, List.mem_singleton]
        constructor
        · rintro ((h | h) | h)
          · exact Or.inl h
          · exact Or.inr (Or.inl ⟨h.symm, hq⟩)
          · exact Or.inr (Or.inr h)
        · rintro (h | ⟨h1, _⟩ | h)
          · exact Or.inl (Or.inl h)
          · exact Or.inl (Or.inr h1.symm)
          · exact Or.inr h
    · rw [if_neg hq] at hstep
      rw [hstep]
      constructor
      · rintro (h | h)
        · exact Or.inl h
        · exact Or.inr (Or.inr h)
      · rintro (h | ⟨_, h2⟩ | h)
        · exact Or.inl h
        · exact absurd h2 hq
        · exact Or.inr h

theorem foldl_nearby_nodup (dist : LatLng ℚ → LatLng ℚ → ℚ) (radius : ℚ)
    (sampledPoints : List (LatLng ℚ)) :
    ∀ (hazards : List HazardPoint) (acc : List NearbyHazard),
      ((acc.map (fun x => x.id)).Nodup) →
      (((hazards.foldl (nearbyStep dist radius sampledPoints) acc).map
        (fun x => x.id)).Nodup) := by
  intro hazards
  induction hazards with
  | nil => intro acc h; simpa using h
  | cons hz hs ih =>
    intro acc hacc
    simp only [List.foldl_cons]
    refine ih _ ?_
    rw [nearbyStep_map_id]
    split
    · by_cases hin : hz.id ∈ acc.map (fun x => x.id)
      · rw [if_pos hin]; exact hacc
      · rw [if_neg hin]
        simp only [List.nodup_append, List.nodup_cons, List.not_mem_nil,
          not_false_iff, List.nodup_nil, and_true, List.disjoint_singleton]
        exact ⟨hacc, trivial, hin⟩
    · exact hacc

/-- **C6.**  For every path, hazard list and radius (and every nonnegative
distance oracle, as the haversine metric is), the id set returned by the
early-exit scan equals the id set a full scan over all sampled points keeps
(minimum distance over the sampled points at most the radius); only the
reported `distanceMeters` may differ (claim C3's counterexample exhibits the
difference). -/
theorem findNearbyHazards_earlyExit_preserves_ids (dist : LatLng ℚ → LatLng ℚ → ℚ)
    (points : List (LatLng ℚ)) (hazards : List HazardPoint) (radius : ℚ)
    (hdist : ∀ p h, 0 ≤ dist p h) (i : String) :
    (i ∈ (findNearbyHazards dist points hazards radius).map (fun h => h.id)) ↔
    (i ∈ (hazards.filter (fun hz =>
        qualifiesWithin (fullScanMinDistance dist ⟨hz.lat, hz.lng⟩ (samplePoints points))
          radius)).map (fun hz => hz.id)) := by
  unfold findNearbyHazards
  split
  case isTrue h =>
    rcases h with hp | hh
    · subst hp
      simp [samplePoints, fullScanMinDistance, qualifiesWithin, List.mem_filter]
    · subst hh
      simp
  case isFalse h =>
    rw [(((List.perm_insertionSort
        (fun a b : NearbyHazard => a.distanceMeters ≤ b.distanceMeters) _).map
        (fun x => x.id)).mem_iff)]
    rw [foldl_nearby_map_id dist radius (samplePoints points) hazards [] i]
    simp only [List.map_nil, List.not_mem_nil, false_or]
    simp only [scan_qualifies_eq_full dist hdist]
    simp only [List.mem_map, List.mem_filter]
    constructor
    · rintro ⟨hz, hmem, hid, hq⟩
      exact ⟨hz, ⟨hmem, hq⟩, hid⟩
    · rintro ⟨hz, ⟨hmem, hq⟩, hid⟩
      exact ⟨hz, hmem, hid, hq⟩

/-- **C6, witness** on the concrete fixture (both hazards qualify, both by
the early-exit scan and by the full scan). -/
theorem findNearbyHazards_earlyExit_preserves_ids_witness :
    ("hazard-far" ∈ (findNearbyHazards cexDist cexPath
        [cexHazardNear, cexHazardFar] 500).map (fun h => h.id)) ↔
    ("hazard-far" ∈ ([cexHazardNear, cexHazardFar].filter (fun hz =>
        qualifiesWithin (fullScanMinDistance cexDist ⟨hz.lat, hz.lng⟩
          (samplePoints cexPath)) 500)).map (fun hz => hz.id)) :=
  findNearbyHazards_earlyExit_preserves_ids cexDist cexPath
    [cexHazardNear, cexHazardFar] 500
    (by intro p h; unfold cexDist; split_ifs <;> norm_num) "hazard-far"

/-! ## C8 — result sorted ascending, one entry per id -/

/-- **C8.**  For every path, hazard list, radius and distance oracle, the
result of `findNearbyHazards` is sorted ascending by `distanceMeters`, and
its id list has no duplicates even if an id occurs several times in the
input hazard list. -/
theorem findNearbyHazards_sorted_and_nodup (dist : LatLng ℚ → LatLng ℚ → ℚ)
    (points : List (LatLng ℚ)) (hazards : List HazardPoint) (radius : ℚ) :
    List.Pairwise (fun a b : NearbyHazard => a.distanceMeters ≤ b.distanceMeters)
      (findNearbyHazards dist points hazards radius) ∧
    ((findNearbyHazards dist points hazards radius).map (fun h => h.id)).Nodup := by
  unfold findNearbyHazards
  split
  · simp
  · constructor
    · exact List.sorted_insertionSort _ _
    · have hperm := (List.perm_insertionSort
        (fun a b : NearbyHazard => a.distanceMeters ≤ b.distanceMeters)
        (hazards.foldl (nearbyStep dist radius (samplePoints points)) [])).map
        (fun x => x.id)
      exact hperm.nodup_iff.mpr
        (foldl_nearby_nodup dist radius (samplePoints points) hazards [] (by simp))

/-! ## C9 — haversine symmetry and vanishing -/

/-- **C9, counterexample.**  "Distinct coordinates yield a nonzero distance"
fails: the two distinct coordinate records (90, 0) and (90, 10) (the north
pole with two different longitudes — both valid latitudes/longitudes) are at
haversine distance 0, because `cos(π/2) = 0` annihilates the longitude
term and the latitude difference is 0. -/
theorem haversineDistance_zero_on_distinct_points :
    (⟨90, 0⟩ : LatLng ℝ) ≠ ⟨90, 10⟩ ∧
    haversineDistance ⟨90, 0⟩ ⟨90, 10⟩ = 0 := by
  constructor
  · intro h
    have := congrArg (fun p : LatLng ℝ => p.lng) h
    norm_num at this
  · simp only [haversineDistance, toRadians]
    have h90 : (90 : ℝ) * Real.pi / 180 = Real.pi / 2 := by ring
    simp only [sub_self, zero_mul, h90, Real.cos_pi_div_two]
    norm_num [Real.sin_zero, Real.sqrt_zero, Real.arcsin_zero]

/-- **C9 (amended).**  `haversineDistance` is symmetric and vanishes on equal
coordinates; distinct coordinate records, however, may be at distance zero
when they denote the same physical point (see the counterexample). -/
theorem haversineDistance_symm_and_self (a b : LatLng ℝ) :
    haversineDistance a b = haversineDistance b a ∧ haversineDistance a a = 0 := by
  constructor
  · simp only [haversineDistance, toRadians]
    have e1 : (a.lat - b.lat) * Real.pi / 180 / 2 =
        -((b.lat - a.lat) * Real.pi / 180 / 2) := by ring
    have e2 : (a.lng - b.lng) * Real.pi / 180 / 2 =
        -((b.lng - a.lng) * Real.pi / 180 / 2) := by ring
    rw [e1, e2, Real.sin_neg, Real.sin_neg]
    ring_nf
  · simp only [haversineDistance, toRadians]
    simp only [sub_self, zero_mul, zero_div, Real.sin_zero]
    norm_num [Real.sqrt_zero, Real.arcsin_zero]

/-! ## C10 — the avoidance waypoint differs from the hazard -/

/-- Offsetting the midpoint by `d * k` along the normalized perpendicular
`(pl/L, pg/L)` produces a point whose perpendicular component is exactly
`d * k`, since the normalized vector has unit squared norm. -/
theorem perp_offset_component (pl pg L k d m1 m2 : ℝ) (hL : L ≠ 0)
    (hL2 : L * L = pl * pl + pg * pg) :
    (m1 + d * (pl / L) * k - m1) * (pl / L) +
      (m2 + d * (pg / L) * k - m2) * (pg / L) = d * k := by
  have h : (m1 + d * (pl / L) * k - m1) * (pl / L) +
      (m2 + d * (pg / L) * k - m2) * (pg / L) =
      d * k * (pl * pl + pg * pg) / (L * L) := by
    field_simp
    ring
  rw [h, ← hL2, mul_div_assoc, div_self (mul_ne_zero hL hL), mul_one]

/-- On a non-degenerate segment, the waypoint's perpendicular component is
`±offset/111000`, with the sign chosen against the side of the hazard. -/
theorem waypoint_perpComponent (bf af hz : LatLng ℝ) (offset : ℝ)
    (hnd : ¬(af.lat - bf.lat = 0 ∧ af.lng - bf.lng = 0)) :
    perpComponent bf af (generateAvoidanceWaypoint Real.sqrt bf af hz offset) =
      (if 0 ≤ perpComponent bf af hz then -1 else 1) * (offset / 111000) := by
  have hS : 0 < -(af.lng - bf.lng) * -(af.lng - bf.lng) +
      (af.lat - bf.lat) * (af.lat - bf.lat) := by
    rcases not_and_or.mp hnd with h | h
    · have := mul_self_pos.mpr h
      nlinarith [mul_self_nonneg (af.lng - bf.lng)]
    · have := mul_self_pos.mpr h
      nlinarith [mul_self_nonneg (af.lat - bf.lat)]
  have hlen : 0 < Real.sqrt (-(af.lng - bf.lng) * -(af.lng - bf.lng) +
      (af.lat - bf.lat) * (af.lat - bf.lat)) := Real.sqrt_pos.mpr hS
  have hlen2 : Real.sqrt (-(af.lng - bf.lng) * -(af.lng - bf.lng) +
        (af.lat - bf.lat) * (af.lat - bf.lat)) *
      Real.sqrt (-(af.lng - bf.lng) * -(af.lng - bf.lng) +
        (af.lat - bf.lat) * (af.lat - bf.lat)) =
      -(af.lng - bf.lng) * -(af.lng - bf.lng) +
        (af.lat - bf.lat) * (af.lat - bf.lat) := Real.mul_self_sqrt hS.le
  simp only [generateAvoidanceWaypoint, perpComponent]
  rw [if_neg (ne_of_gt hlen)]
  split_ifs with h
  · exact perp_offset_component _ _ _ _ (-1) _ _ (ne_of_gt hlen) hlen2
  · exact perp_offset_component _ _ _ _ 1 _ _ (ne_of_gt hlen) hlen2

/-- On a non-degenerate segment the waypoint never coincides with the
hazard: its perpendicular component is `±offset/111000`, strictly on the
other side of (or strictly off) the hazard's component. -/
theorem waypoint_ne_hazard_nondegenerate (bf af hz : LatLng ℝ) (offset : ℝ)
    (hoff : 0 < offset) (hnd : ¬(af.lat - bf.lat = 0 ∧ af.lng - bf.lng = 0)) :
    generateAvoidanceWaypoint Real.sqrt bf af hz offset ≠ hz := by
  intro heq
  have h1 := waypoint_perpComponent bf af hz offset hnd
  rw [heq] at h1
  have hdeg : 0 < offset / 111000 := by positivity
  split_ifs at h1 with h
  · nlinarith
  · push_neg at h
    nlinarith

/-- Pushing a point by `k` along the unit vector away from the hazard
strictly increases the squared distance to the hazard. -/
theorem away_offset_farther (aL aG L k m1 m2 h1 h2 : ℝ) (hL : 0 < L)
    (hA : 0 < aL * aL + aG * aG) (hk : 0 < k)
    (e1 : m1 - h1 = aL) (e2 : m2 - h2 = aG) :
    (m1 + aL / L * k - h1) ^ 2 + (m2 + aG / L * k - h2) ^ 2 >
      (m1 - h1) ^ 2 + (m2 - h2) ^ 2 := by
  have hm1 : m1 = aL + h1 := by linarith
  have hm2 : m2 = aG + h2 := by linarith
  subst hm1
  subst hm2
  have key : (aL + h1 + aL / L * k - h1) ^ 2 + (aG + h2 + aG / L * k - h2) ^ 2 =
      (aL * aL + aG * aG) * (1 + k / L) ^ 2 := by
    field_simp
    ring
  rw [key, show (aL + h1 - h1) ^ 2 + (aG + h2 - h2) ^ 2 = aL * aL + aG * aG by ring]
  have ht : 0 < k / L := div_pos hk hL
  nlinarith [mul_pos hA ht, mul_nonneg (mul_pos hA ht).le ht.le]

/-- In the zero-length-segment case with the hazard away from the midpoint,
the waypoint is strictly farther from the hazard than the midpoint is. -/
theorem waypoint_farther_degenerate (bf af hz : LatLng ℝ) (offset : ℝ)
    (hoff : 0 < offset) (hdg : af.lat - bf.lat = 0 ∧ af.lng - bf.lng = 0)
    (hne : hz ≠ segmentMidpoint bf af) :
    sqDegreeDist (generateAvoidanceWaypoint Real.sqrt bf af hz offset) hz >
      sqDegreeDist (segmentMidpoint bf af) hz := by
  obtain ⟨hdl, hdn⟩ := hdg
  have hxy : ¬(hz.lat = (bf.lat + af.lat) / 2 ∧ hz.lng = (bf.lng + af.lng) / 2) := by
    intro hc
    refine hne ?_
    cases hz
    simp only [segmentMidpoint, LatLng.mk.injEq]
    exact ⟨hc.1, hc.2⟩
  have hA : 0 < ((bf.lat + af.lat) / 2 - hz.lat) * ((bf.lat + af.lat) / 2 - hz.lat) +
      ((bf.lng + af.lng) / 2 - hz.lng) * ((bf.lng + af.lng) / 2 - hz.lng) := by
    rcases not_and_or.mp hxy with h | h
    · have hx : (bf.lat + af.lat) / 2 - hz.lat ≠ 0 := fun hc => h (by linarith)
      nlinarith [mul_self_pos.mpr hx,
        mul_self_nonneg ((bf.lng + af.lng) / 2 - hz.lng)]
    · have hx : (bf.lng + af.lng) / 2 - hz.lng ≠ 0 := fun hc => h (by linarith)
      nlinarith [mul_self_pos.mpr hx,
        mul_self_nonneg ((bf.lat + af.lat) / 2 - hz.lat)]
  have hL : 0 < Real.sqrt
      (((bf.lat + af.lat) / 2 - hz.lat) * ((bf.lat + af.lat) / 2 - hz.lat) +
       ((bf.lng + af.lng) / 2 - hz.lng) * ((bf.lng + af.lng) / 2 - hz.lng)) :=
    Real.sqrt_pos.mpr hA
  have hL2 := Real.mul_self_sqrt hA.le
  have hk : 0 < offset / 111000 := by positivity
  simp only [generateAvoidanceWaypoint, sqDegreeDist, segmentMidpoint]
  rw [hdl, hdn]
  rw [show Real.sqrt (-(0 : ℝ) * -(0 : ℝ) + 0 * 0) = 0 by norm_num]
  rw [if_pos rfl]
  rw [if_neg (ne_of_gt hL)]
  exact away_offset_farther _ _ _ _ _ _ _ _ hL hA hk rfl rfl

/-- In the fully degenerate case (zero-length segment, hazard at the
midpoint) the fixed +0.01° nudge keeps the waypoint distinct from the
hazard. -/
theorem waypoint_nudge_degenerate (bf af hz : LatLng ℝ) (offset : ℝ)
    (hdg : af.lat - bf.lat = 0 ∧ af.lng - bf.lng = 0)
    (heq : hz = segmentMidpoint bf af) :
    generateAvoidanceWaypoint Real.sqrt bf af hz offset ≠ hz := by
  obtain ⟨hdl, hdn⟩ := hdg
  intro hcon
  have hzl : hz.lat = (bf.lat + af.lat) / 2 := by rw [heq]; rfl
  have hzn : hz.lng = (bf.lng + af.lng) / 2 := by rw [heq]; rfl
  have hw : generateAvoidanceWaypoint Real.sqrt bf af hz offset =
      ⟨(bf.lat + af.lat) / 2 + 1 / 100, (bf.lng + af.lng) / 2 + 1 / 100⟩ := by
    simp only [generateAvoidanceWaypoint]
    rw [hdl, hdn]
    rw [show Real.sqrt (-(0 : ℝ) * -(0 : ℝ) + 0 * 0) = 0 by norm_num]
    rw [if_pos rfl]
    rw [hzl, hzn]
    rw [show ((bf.lat + af.lat) / 2 - (bf.lat + af.lat) / 2 : ℝ) = 0 by ring,
        show ((bf.lng + af.lng) / 2 - (bf.lng + af.lng) / 2 : ℝ) = 0 by ring]
    rw [show Real.sqrt ((0 : ℝ) * 0 + 0 * 0) = 0 by norm_num]
    rw [if_pos rfl]
  rw [hw, heq] at hcon
  have hlat := congrArg (fun p : LatLng ℝ => p.lat) hcon
  simp only [segmentMidpoint] at hlat
  norm_num at hlat

/-- **C10 (amended).**  For every route segment, hazard and strictly positive
offset, the generated waypoint differs from the hazard.  In the zero-length
segment case with the hazard off the midpoint, the waypoint is strictly
farther from the hazard than the midpoint.  In the non-degenerate case, IF
the hazard has a nonzero perpendicular component, the waypoint's
perpendicular component has the opposite sign (the claim's unconditional
opposite-sign assertion fails when the hazard sits exactly on the route
line — see the counterexample; the waypoint is still distinct). -/
theorem generateAvoidanceWaypoint_avoids_hazard (bf af hz : LatLng ℝ)
    (offset : ℝ) (hoff : 0 < offset) :
    generateAvoidanceWaypoint Real.sqrt bf af hz offset ≠ hz ∧
    ((af.lat - bf.lat = 0 ∧ af.lng - bf.lng = 0) → hz ≠ segmentMidpoint bf af →
      sqDegreeDist (generateAvoidanceWaypoint Real.sqrt bf af hz offset) hz >
        sqDegreeDist (segmentMidpoint bf af) hz) ∧
    (¬(af.lat - bf.lat = 0 ∧ af.lng - bf.lng = 0) → perpComponent bf af hz ≠ 0 →
      perpComponent bf af hz *
        perpComponent bf af (generateAvoidanceWaypoint Real.sqrt bf af hz offset) < 0) := by
  refine ⟨?_, ?_, ?_⟩
  · by_cases hdg : af.lat - bf.lat = 0 ∧ af.lng - bf.lng = 0
    · by_cases heq : hz = segmentMidpoint bf af
      · exact waypoint_nudge_degenerate bf af hz offset hdg heq
      · intro hcon
        have h := waypoint_farther_degenerate bf af hz offset hoff hdg heq
        rw [hcon] at h
        have h0 : sqDegreeDist hz hz = 0 := by simp [sqDegreeDist]
        have h1 : 0 ≤ sqDegreeDist (segmentMidpoint bf af) hz := by
          unfold sqDegreeDist
          positivity
        rw [h0] at h
        linarith
    · exact waypoint_ne_hazard_nondegenerate bf af hz offset hoff hdg
  · intro hdg hne
    exact waypoint_farther_degenerate bf af hz offset hoff hdg hne
  · intro hnd hpc
    rw [waypoint_perpComponent bf af hz offset hnd]
    have hdeg : 0 < offset / 111000 := by positivity
    rcases lt_or_gt_of_ne hpc with hneg | hpos
    · rw [if_neg (not_le.mpr hneg)]
      nlinarith
    · rw [if_pos hpos.le]
      nlinarith

/-- **C10, counterexample.**  The claim's "the waypoint's perpendicular
component has the opposite sign to the hazard's" fails when the hazard sits
exactly on the route line: with segment (0,0)→(0,2), hazard (0, 1.5) and the
default 1500 m offset, the hazard's perpendicular component is 0 (no sign),
while the waypoint's is strictly negative — the two do not have opposite
signs (their product is 0, not negative). -/
theorem generateAvoidanceWaypoint_sign_counterexample :
    perpComponent ⟨0, 0⟩ ⟨0, 2⟩ ⟨0, 3 / 2⟩ = 0 ∧
    perpComponent ⟨0, 0⟩ ⟨0, 2⟩
      (generateAvoidanceWaypoint Real.sqrt ⟨0, 0⟩ ⟨0, 2⟩ ⟨0, 3 / 2⟩ 1500) < 0 ∧
    ¬ (perpComponent ⟨0, 0⟩ ⟨0, 2⟩ ⟨0, 3 / 2⟩ *
        perpComponent ⟨0, 0⟩ ⟨0, 2⟩
          (generateAvoidanceWaypoint Real.sqrt ⟨0, 0⟩ ⟨0, 2⟩ ⟨0, 3 / 2⟩ 1500) < 0) := by
  have h4 : Real.sqrt (4 : ℝ) = 2 := by
    rw [show (4 : ℝ) = 2 ^ 2 by norm_num]
    exact Real.sqrt_sq (by norm_num)
  refine ⟨?_, ?_, ?_⟩
  · simp only [perpComponent]
    norm_num [h4]
  · simp only [generateAvoidanceWaypoint, perpComponent]
    norm_num [h4]
  · simp only [generateAvoidanceWaypoint, perpComponent]
    norm_num [h4]

/-- **C10, witness** for the amended theorem at a concrete configuration. -/
theorem generateAvoidanceWaypoint_avoids_hazard_witness :
    (0 : ℝ) < 1500 ∧
    generateAvoidanceWaypoint Real.sqrt ⟨0, 0⟩ ⟨0, 2⟩ ⟨1, 0⟩ 1500 ≠ ⟨1, 0⟩ :=
  ⟨by norm_num,
   (generateAvoidanceWaypoint_avoids_hazard ⟨0, 0⟩ ⟨0, 2⟩ ⟨1, 0⟩ 1500 (by norm_num)).1⟩

/-! ## C4 — avoidance candidates only improve, only when requested -/

theorem parseOneRoute_flags (eco hav : Bool) (fkm : Option ℚ) (idx : Nat)
    (route : DirectionsRoute) (r : RouteOption)
    (h : parseOneRoute eco hav fkm idx route = .ok r) :
    r.isEcoFriendly = eco ∧ r.isHazardAvoiding = hav := by
  unfold parseOneRoute at h
  split at h
  · exact absurd h (by simp)
  · rw [Except.ok.injEq] at h
    subst h
    exact ⟨rfl, rfl⟩

theorem parseRoutesAux_flags (eco hav : Bool) (fkm : Option ℚ) :
    ∀ (rs : List DirectionsRoute) (idx : Nat) (l : List RouteOption),
      parseRoutesAux eco hav fkm idx rs = .ok l →
      ∀ r ∈ l, r.isEcoFriendly = eco ∧ r.isHazardAvoiding = hav := by
  intro rs
  induction rs with
  | nil =>
    intro idx l h r hr
    unfold parseRoutesAux at h
    rw [Except.ok.injEq] at h
    subst h
    simp at hr
  | cons d ds ih =>
    intro idx l h r hr
    unfold parseRoutesAux at h
    split at h
    · exact absurd h (by simp)
    next x hx =>
      split at h
      · exact absurd h (by simp)
      next xs hxs =>
        rw [Except.ok.injEq] at h
        subst h
        rcases List.mem_cons.mp hr with rfl | hr2
        · exact parseOneRoute_flags eco hav fkm idx d r hx
        · exact ih (idx + 1) xs hxs r hr2

theorem parseGoogleRoutes_flags (data : GoogleDirectionsResponse) (eco hav : Bool)
    (fkm : Option ℚ) (l : List RouteOption) (h : parseGoogleRoutes data eco hav fkm = .ok l) :
    ∀ r ∈ l, r.isEcoFriendly = eco ∧ r.isHazardAvoiding = hav :=
  parseRoutesAux_flags eco hav fkm data.routes 0 l h

theorem getMockRoutes_flags (origin destination : String) :
    ∀ r ∈ getMockRoutes origin destination, r.isHazardAvoiding = false := by
  intro r hr
  simp only [getMockRoutes, List.mem_cons, List.not_mem_nil, or_false] at hr
  rcases hr with rfl | rfl <;> rfl

theorem buildBaseRoutesAfterFast_flags (fastRoutes : List RouteOption)
    (ecoDirections : Option GoogleDirectionsResponse) (origin destination : String)
    (routes : List RouteOption) (fkm : Option ℚ)
    (hfast : ∀ r ∈ fastRoutes, r.isHazardAvoiding = false)
    (h : buildBaseRoutesAfterFast fastRoutes ecoDirections origin destination =
      .ok (routes, fkm)) :
    ∀ r ∈ routes, r.isHazardAvoiding = false := by
  intro r hr
  unfold buildBaseRoutesAfterFast at h
  simp only [] at h
  split at h
  next d =>
    split at h
    · exact absurd h (by simp)
    next parsed hparsed =>
      rw [Except.ok.injEq, Prod.mk.injEq] at h
      obtain ⟨hroutes, -⟩ := h
      subst hroutes
      split at hr
      · exact getMockRoutes_flags origin destination r hr
      · rcases List.mem_append.mp hr with h1 | h2
        · exact hfast r h1
        · exact (parseGoogleRoutes_flags d true false _ parsed hparsed r
            (List.take_subset 1 parsed h2)).2
  next =>
    rw [Except.ok.injEq, Prod.mk.injEq] at h
    obtain ⟨hroutes, -⟩ := h
    subst hroutes
    split at hr
    · exact getMockRoutes_flags origin destination r hr
    · rcases List.mem_append.mp hr with h1 | h2
      · exact hfast r h1
      · simp at h2

theorem buildBaseRoutes_flags (fastDirections ecoDirections : Option GoogleDirectionsResponse)
    (origin destination : String) (routes : List RouteOption) (fkm : Option ℚ)
    (h : buildBaseRoutes fastDirections ecoDirections origin destination = .ok (routes, fkm)) :
    ∀ r ∈ routes, r.isHazardAvoiding = false := by
  unfold buildBaseRoutes at h
  split at h
  next d =>
    split at h
    · exact absurd h (by simp)
    next parsed hparsed =>
      exact buildBaseRoutesAfterFast_flags _ _ _ _ _ _
        (fun r hr => (parseGoogleRoutes_flags d false false none parsed hparsed r
          (List.take_subset 1 parsed hr)).2) h
  next =>
    exact buildBaseRoutesAfterFast_flags _ _ _ _ _ _ (by simp) h

theorem scoreRoute_isHazardAvoiding (dist : LatLng ℚ → LatLng ℚ → ℚ)
    (hazards : List HazardPoint) (r : RouteOption) :
    (scoreRoute dist hazards r).isHazardAvoiding = r.isHazardAvoiding := rfl

theorem scoreRoute_score (dist : LatLng ℚ → LatLng ℚ → ℚ)
    (hazards : List HazardPoint) (r : RouteOption) :
    (scoreRoute dist hazards r).hazardExposureScore =
      some (calculateHazardExposureScore
        (findNearbyHazards dist (decodePolyline r.polyline) hazards HAZARD_RADIUS_METERS)) := rfl

/-- What a successful avoidance candidate guarantees: it is marked
hazard-avoiding and its freshly computed exposure score is strictly below
the source candidate's (`?? 100`). -/
theorem avoidanceCandidate_spec (sqrtQ : ℚ → ℚ) (dist : LatLng ℚ → LatLng ℚ → ℚ)
    (avoidFetch : Bool → List (LatLng ℚ) → Option GoogleDirectionsResponse)
    (hazards : List HazardPoint) (fkm : Option ℚ) (route a : RouteOption)
    (h : avoidanceCandidate sqrtQ dist avoidFetch hazards fkm route = some a) :
    a.isHazardAvoiding = true ∧ ∃ sa : Int, a.hazardExposureScore = some sa ∧
      sa < route.hazardExposureScore.getD 100 := by
  unfold avoidanceCandidate at h
  simp only [] at h
  split at h
  · exact absurd h (by simp)
  split at h
  · exact absurd h (by simp)
  split at h
  · exact absurd h (by simp)
  next resp hresp =>
    split at h
    · exact absurd h (by simp)
    next avoidRoutes hparse =>
      split at h
      · exact absurd h (by simp)
      next first hhead =>
        split at h
        · exact absurd h (by simp)
        next s hscore =>
          split at h
          next hlt =>
            rw [Option.some.injEq] at h
            subst h
            have hmem : first ∈ avoidRoutes := by
              cases avoidRoutes with
              | nil => simp at hhead
              | cons x xs =>
                rw [List.head?_cons, Option.some.injEq] at hhead
                subst hhead
                exact List.mem_cons_self _ _
            have hflag := (parseGoogleRoutes_flags resp route.isEcoFriendly true fkm
              avoidRoutes hparse first hmem).2
            refine ⟨by rw [scoreRoute_isHazardAvoiding, hflag], s, hscore, hlt⟩
          · exact absurd h (by simp)

/-- **C4.**  In the final routes list of a planning result, every candidate
marked `isHazardAvoiding` exists only if the request's `avoidHazards` flag
was set, and its exposure score is strictly lower than that of one of the
(non-avoiding) base candidates — the one whose nearby hazards produced its
waypoints; with `avoidHazards = false` no avoidance candidate is ever
appended, regardless of exposure scores (Scenario E). -/
theorem planRoutes_avoidance_discipline (sqrtQ : ℚ → ℚ)
    (dist : LatLng ℚ → LatLng ℚ → ℚ)
    (avoidFetch : Bool → List (LatLng ℚ) → Option GoogleDirectionsResponse)
    (fastDirections ecoDirections : Option GoogleDirectionsResponse)
    (allHazards : Option (List HazardPoint)) (request : RouteRequest)
    (routes : List RouteOption)
    (hok : planRoutes sqrtQ dist avoidFetch fastDirections ecoDirections
      allHazards request = .ok routes) :
    (∀ r ∈ routes, r.isHazardAvoiding = true →
      request.avoidHazards = true ∧
      ∃ src ∈ routes, src.isHazardAvoiding = false ∧
        ∃ sa ss : Int, r.hazardExposureScore = some sa ∧
          src.hazardExposureScore = some ss ∧ sa < ss) ∧
    (request.avoidHazards = false → ∀ r ∈ routes, r.isHazardAvoiding = false) := by
  unfold planRoutes at hok
  split at hok
  · exact absurd hok (by simp)
  next br hbr =>
    rw [Except.ok.injEq] at hok
    have hbase : ∀ r ∈ br.1, r.isHazardAvoiding = false := by
      obtain ⟨routes1, fkm1⟩ := br
      exact buildBaseRoutes_flags _ _ _ _ _ _ hbr
    have hscored : ∀ r ∈ scoreRoutes dist (allHazards.getD []) br.1,
        r.isHazardAvoiding = false := by
      intro r hr
      obtain ⟨b, hb, rfl⟩ := List.mem_map.mp hr
      rw [scoreRoute_isHazardAvoiding]
      exact hbase b hb
    subst hok
    unfold avoidancePass
    split
    next hcond =>
      constructor
      · intro r hr hrtrue
        rcases List.mem_append.mp hr with h1 | h2
        · rw [hscored r h1] at hrtrue
          exact absurd hrtrue (by simp)
        · obtain ⟨src, hsrc, hcand⟩ := List.mem_filterMap.mp h2
          obtain ⟨-, sa, hsa, hlt⟩ :=
            avoidanceCandidate_spec sqrtQ dist avoidFetch _ _ src r hcand
          obtain ⟨b, hb, rfl⟩ := List.mem_map.mp hsrc
          rw [scoreRoute_score, Option.getD_some] at hlt
          exact ⟨hcond.1, scoreRoute dist (allHazards.getD []) b,
            List.mem_append_left _ hsrc, hscored _ hsrc, sa, _, hsa,
            scoreRoute_score dist (allHazards.getD []) b, hlt⟩
      · intro hfalse
        rw [hfalse] at hcond
        exact absurd hcond.1 (by simp)
    next hcond =>
      constructor
      · intro r hr hrtrue
        rw [hscored r hr] at hrtrue
        exact absurd hrtrue (by simp)
      · intro _
        exact hscored

/-- **C4, witness**: with `avoidHazards = false` and a hazard present, the
concretely evaluated plan contains no avoidance candidate. -/
theorem planRoutes_avoidance_discipline_witness :
    ((planRoutes witnessSqrt witnessFarDist witnessNoFetch none none
      (some [cexHazardNear]) witnessRequestNoAvoid).toOption.getD []).all
      (fun r => !r.isHazardAvoiding) = true := by
  have h := (planRoutes_avoidance_discipline witnessSqrt witnessFarDist witnessNoFetch
    none none (some [cexHazardNear]) witnessRequestNoAvoid
    ((planRoutes witnessSqrt witnessFarDist witnessNoFetch none none
      (some [cexHazardNear]) witnessRequestNoAvoid).toOption.getD [])
    (by with_unfolding_all rfl)).2 (by rfl)
  rw [List.all_eq_true]
  intro r hr
  rw [h r hr]
  rfl

/-! ## C5 — synthetic fallback when both directions calls fail -/

theorem avoidancePass_length_ge (sqrtQ : ℚ → ℚ) (dist : LatLng ℚ → LatLng ℚ → ℚ)
    (avoidFetch : Bool → List (LatLng ℚ) → Option GoogleDirectionsResponse)
    (avoidHazards : Bool) (hazards : List HazardPoint) (fkm : Option ℚ)
    (routes : List RouteOption) :
    routes.length ≤
      (avoidancePass sqrtQ dist avoidFetch avoidHazards hazards fkm routes).length := by
  unfold avoidancePass
  split
  · rw [List.length_append]
    omega
  · exact le_rfl

/-- **C5.**  When both directions-provider calls fail, the orchestrator
substitutes the built-in synthetic mock candidates: the planning pipeline
still returns successfully (`.ok`, no fatal error) with at least one
`RouteCandidate` — whatever the remaining oracles, hazards and request. -/
theorem planRoutes_mock_fallback_nonempty (sqrtQ : ℚ → ℚ)
    (dist : LatLng ℚ → LatLng ℚ → ℚ)
    (avoidFetch : Bool → List (LatLng ℚ) → Option GoogleDirectionsResponse)
    (allHazards : Option (List HazardPoint)) (request : RouteRequest) :
    ∃ routes : List RouteOption,
      planRoutes sqrtQ dist avoidFetch none none allHazards request = .ok routes ∧
      1 ≤ routes.length := by
  have hplan : planRoutes sqrtQ dist avoidFetch none none allHazards request =
      .ok (avoidancePass sqrtQ dist avoidFetch request.avoidHazards
        (allHazards.getD []) none (scoreRoutes dist (allHazards.getD [])
          (getMockRoutes request.origin request.destination))) := rfl
  refine ⟨_, hplan, ?_⟩
  have h1 := avoidancePass_length_ge sqrtQ dist avoidFetch request.avoidHazards
    (allHazards.getD []) none (scoreRoutes dist (allHazards.getD [])
      (getMockRoutes request.origin request.destination))
  have h2 : (scoreRoutes dist (allHazards.getD [])
      (getMockRoutes request.origin request.destination)).length = 2 := by
    unfold scoreRoutes
    rw [List.length_map]
    rfl
  omega

/-! ## C7 — the recommended id always names a candidate -/

theorem find_id_mem (routes : List RouteOption) (p : RouteOption → Bool)
    (r : RouteOption) (h : routes.find? p = some r) :
    r.id ∈ routes.map (fun x => x.id) :=
  List.mem_map.mpr ⟨r, List.mem_of_find?_eq_some h, rfl⟩

theorem orElse_chain_cases {α : Type} (P : α → Prop) (b1 b2 b3 : Option α) (d : α)
    (h1 : ∀ x, b1 = some x → P x) (h2 : ∀ x, b2 = some x → P x)
    (h3 : ∀ x, b3 = some x → P x) (hd : P d) :
    P (((b1.orElse fun _ => b2).orElse fun _ => b3).getD d) := by
  cases b1 with
  | some x => simpa [Option.orElse] using h1 x rfl
  | none =>
    cases b2 with
    | some x => simpa [Option.orElse] using h2 x rfl
    | none =>
      cases b3 with
      | some x => simpa [Option.orElse] using h3 x rfl
      | none => simpa [Option.orElse] using hd

/-- **C7.**  For a nonempty candidate list, both the validation tail of the
external reasoner path (substituting the first candidate when the returned
id is unknown) and the deterministic fallback policy recommend an id that
names one of the candidates in `routes`. -/
theorem recommendedRouteId_mem_routes (routes : List RouteOption)
    (parsed : ParsedGeminiReply) (environmental : EnvironmentalData)
    (hazards : List HazardPoint) (preferEco : Bool) (hne : routes ≠ []) :
    (finalizeRecommendation routes parsed).recommendedRouteId ∈
      routes.map (fun r => r.id) ∧
    (generateFallbackRecommendation routes environmental hazards
      preferEco).recommendedRouteId ∈ routes.map (fun r => r.id) := by
  constructor
  · unfold finalizeRecommendation
    simp only []
    split
    next hmem => exact hmem
    next hmem =>
      cases routes with
      | nil => exact absurd rfl hne
      | cons r0 rs => simp
  · unfold generateFallbackRecommendation
    split
    next hh =>
      cases routes with
      | nil => exact absurd rfl hne
      | cons r0 rs => simp at hh
    next d hh =>
      simp only []
      have hdmem : d ∈ routes := by
        cases routes with
        | nil => simp at hh
        | cons r0 rs =>
          rw [List.head?_cons, Option.some.injEq] at hh
          subst hh
          exact List.mem_cons_self _ _
      refine orElse_chain_cases
        (fun g : GeminiRecommendation =>
          g.recommendedRouteId ∈ routes.map (fun r => r.id)) _ _ _ _
        ?_ ?_ ?_ ?_
      · intro x hx
        split at hx
        · obtain ⟨r, hr, rfl⟩ := Option.map_eq_some'.mp hx
          exact find_id_mem _ _ _ hr
        · simp at hx
      · intro x hx
        split at hx
        · obtain ⟨r, hr, rfl⟩ := Option.map_eq_some'.mp hx
          exact find_id_mem _ _ _ hr
        · simp at hx
      · intro x hx
        split at hx
        · obtain ⟨r, hr, rfl⟩ := Option.map_eq_some'.mp hx
          exact find_id_mem _ _ _ hr
        · simp at hx
      · cases hf : routes.find? (fun r => !r.isEcoFriendly && !r.isHazardAvoiding) with
        | some rf =>
          simp only [hf, Option.map_some', Option.getD_some]
          exact find_id_mem _ _ _ hf
        | none =>
          simp only [hf, Option.map_none', Option.getD_none]
          exact List.mem_map.mpr ⟨d, hdmem, rfl⟩

/-- **C7, witness** at a one-candidate list and a reasoner reply naming a
bogus id. -/
theorem recommendedRouteId_mem_routes_witness :
    (finalizeRecommendation [witnessRoute] witnessParsedReply).recommendedRouteId ∈
      [witnessRoute].map (fun r => r.id) ∧
    (generateFallbackRecommendation [witnessRoute] witnessEnvironmental
      [cexHazardNear] false).recommendedRouteId ∈ [witnessRoute].map (fun r => r.id) :=
  recommendedRouteId_mem_routes [witnessRoute] witnessParsedReply
    witnessEnvironmental [cexHazardNear] false (by simp)
